import Mathlib

/-!
Verification model of the obsidian-youtube-transcript plugin.

JavaScript strings are modelled as `List Char` (Unicode scalar values);
JavaScript numbers as `Option ℚ` where `none` models `NaN` and exact
rational arithmetic stands in for IEEE doubles.  Each regular expression of
the source is translated into an explicit scanning function with the exact
backtracking behaviour the pattern has on a JS engine (all the patterns used
by the plugin are deterministic at a given start position except for the
lazy `.*?` of the markdown-link pattern, which is modelled by an explicit
scan over candidate split points).
-/

namespace YTT

/-- Newline character. -/
def nl : Char := Char.ofNat 10

/-- Apostrophe character. -/
def apos : Char := Char.ofNat 39

/-- Double-quote character. -/
def dq : Char := Char.ofNat 34

/-- JS regex `\s` (the ASCII whitespace characters; the Unicode space
characters also matched by JS never occur in the inputs modelled here). -/
def isJsWs (c : Char) : Bool :=
  c == ' ' || c == Char.ofNat 9 || c == nl || c == Char.ofNat 13 ||
  c == Char.ofNat 11 || c == Char.ofNat 12

/-- The video-id character class `[a-zA-Z0-9_-]`. -/
def isIdChar (c : Char) : Bool :=
  c.isAlpha || c.isDigit || c == '_' || c == '-'

/-- One attempt of a `VIDEO_ID_PATTERNS` regex at the current position:
the literal prefix `pre` (the non-capturing group) followed by the capture
`([a-zA-Z0-9_-]{11})`, exactly 11 id characters. -/
def tryHere (pre s : List Char) : Option (List Char) :=
  if pre.isPrefixOf s then
    let id := (s.drop pre.length).take 11
    if id.length = 11 ∧ id.all isIdChar = true then some id else none
  else none

/-- Leftmost match of a `VIDEO_ID_PATTERNS` regex: positions are tried left
to right, as `String.prototype.match` does. -/
def scanMatch (pre : List Char) : List Char → Option (List Char)
  | [] => none
  | c :: t => (tryHere pre (c :: t)).orElse fun _ => scanMatch pre t

/-- The five literal prefixes of `VIDEO_ID_PATTERNS`, in source order:
watch query parameter, short link, embed path, legacy `/v/` path, shorts
path. -/
def VIDEO_ID_PATTERNS : List (List Char) :=
  ["youtube.com/watch?v=".data, "youtu.be/".data, "youtube.com/embed/".data,
   "youtube.com/v/".data, "youtube.com/shorts/".data]

/-- `extractVideoId`: try each pattern in order, return the first capture
(the capture is always 11 characters, hence non-empty, so the source's JS
truthiness check on `match?.[1]` is just a presence check). -/
def extractVideoId (url : List Char) : Option (List Char) :=
  VIDEO_ID_PATTERNS.findSome? fun p => scanMatch p url

/-- The trailing-punctuation class `[),.\]>]` of the trim in `addUrl`. -/
def isTrailPunct (c : Char) : Bool :=
  c == ')' || c == ',' || c == '.' || c == ']' || c == '>'

/-- `url.replace(/[),.\]>]+$/, "")`: strip trailing punctuation. -/
def trimTrailing (u : List Char) : List Char :=
  (u.reverse.dropWhile isTrailPunct).reverse

/-- The `addUrl` closure of `findYouTubeUrls`: skip a falsy (empty)
candidate and a candidate already contained *untrimmed* in the accumulator;
otherwise push the trimmed candidate. -/
def addUrl (urls : List (List Char)) (u : List Char) : List (List Char) :=
  if u ≠ [] ∧ ¬ urls.contains u then urls ++ [trimTrailing u] else urls

/-- First split of `s` around an occurrence of `pat` (the semantics of a
lazy quantifier before a literal): returns the part before the earliest
occurrence and the part after it. -/
def splitFirst (pat : List Char) : List Char → Option (List Char × List Char)
  | [] => if pat.isPrefixOf [] then some ([], []) else none
  | c :: t =>
    if pat.isPrefixOf (c :: t) then some ([], (c :: t).drop pat.length)
    else
      match splitFirst pat t with
      | some r => some (c :: r.1, r.2)
      | none => none

/-- Front-matter block per the pattern `^---\n([\s\S]*?)\n---` (anchored at
the start of the document, lazy body up to the first `\n---`). -/
def frontmatterOf (content : List Char) : Option (List Char) :=
  if "---\n".data.isPrefixOf content then
    (splitFirst ("\n---".data) (content.drop 4)).map (fun r => r.1)
  else none

/-- The character class `[^\s"'\n]` of the front-matter source regex. -/
def isFmUrlChar (c : Char) : Bool :=
  !(isJsWs c) && c != dq && c != apos

/-- `pat` occurs as a prefix of some suffix of `s` with at least one
character of `s` remaining after it. -/
def hasSubThenMore (pat : List Char) : List Char → Bool
  | [] => false
  | c :: t => (pat.isPrefixOf (c :: t) && decide (pat.length < t.length + 1)) || hasSubThenMore pat t

/-- `youtube` (or any `pat`) occurs inside `run` with at least one character
before it and at least one after it — the `[^\s"'\n]+youtube[^\s"'\n]+`
part of the source regex, where both `+` repetitions must be non-empty. -/
def hasInnerSub (pat run : List Char) : Bool :=
  match run with
  | [] => false
  | _ :: t => hasSubThenMore pat t

/-- Tail of the front-matter source regex after the literal `source:` has
matched: `\s*["']?(https?:\/\/[^\s"'\n]+youtube[^\s"'\n]+)["']?`.  Because
the quote and the scheme cannot overlap, the greedy/optional parts are
deterministic; the capture extends to the end of the maximal run of allowed
characters. -/
def trySourceTail (r : List Char) : Option (List Char) :=
  let r1 := r.dropWhile isJsWs
  let r2 := if r1.head? = some dq ∨ r1.head? = some apos then r1.drop 1 else r1
  if "https://".data.isPrefixOf r2 then
    let run := (r2.drop 8).takeWhile isFmUrlChar
    if hasInnerSub "youtube".data run then some ("https://".data ++ run) else none
  else if "http://".data.isPrefixOf r2 then
    let run := (r2.drop 7).takeWhile isFmUrlChar
    if hasInnerSub "youtube".data run then some ("http://".data ++ run) else none
  else none

/-- Leftmost match of the front-matter source regex: scan the positions of
the literal `source:`, trying the tail at each. -/
def findSourceUrl : List Char → Option (List Char)
  | [] => none
  | c :: t =>
    if "source:".data.isPrefixOf (c :: t) then
      match trySourceTail ((c :: t).drop 7) with
      | some u => some u
      | none => findSourceUrl t
    else findSourceUrl t

/-- The character class `[^\s)]` of the markdown-link URL. -/
def isMdUrlChar (c : Char) : Bool := !(isJsWs c) && c != ')'

/-- The scheme literal `https?:\/\/` (greedy `s?` is deterministic here):
returns the consumed characters and the rest. -/
def afterScheme (r : List Char) : Option (List Char × List Char) :=
  if "https://".data.isPrefixOf r then some ("https://".data, r.drop 8)
  else if "http://".data.isPrefixOf r then some ("http://".data, r.drop 7)
  else none

/-- The optional `(?:www\.)?`. -/
def afterWww (r : List Char) : List Char × List Char :=
  if "www.".data.isPrefixOf r then ("www.".data, r.drop 4) else ([], r)

/-- The alternation `(?:youtube\.com|youtu\.be)` (branches differ at their
sixth character, so the alternation is deterministic). -/
def afterDomain2 (r : List Char) : Option (List Char × List Char) :=
  if "youtube.com".data.isPrefixOf r then some ("youtube.com".data, r.drop 11)
  else if "youtu.be".data.isPrefixOf r then some ("youtu.be".data, r.drop 8)
  else none

/-- URL group and closing paren of the markdown pattern, starting just after
`](`: `(https?:\/\/(?:www\.)?(?:youtube\.com|youtu\.be)[^\s)]+)\)`.
Returns the capture and the remainder after the closing paren. -/
def tryMdUrl (r : List Char) : Option (List Char × List Char) :=
  match afterScheme r with
  | none => none
  | some (sch, r1) =>
    let w := (afterWww r1).1
    let r2 := (afterWww r1).2
    match afterDomain2 r2 with
    | none => none
    | some (dom, r3) =>
      let run := r3.takeWhile isMdUrlChar
      if run ≠ [] ∧ (r3.drop run.length).head? = some ')' then
        some (sch ++ w ++ dom ++ run, (r3.drop run.length).drop 1)
      else none

/-- The lazy `.*?\]\(` of the markdown pattern, scanning just after the
opening `[`: the engine tries each `](` split point in order (never across a
newline, since `.` does not match `\n`), attempting the URL tail at each
and extending the lazy repetition on failure. -/
def mdAfterBracket : List Char → Option (List Char × List Char)
  | [] => none
  | c :: t =>
    if c = nl then none
    else if c = ']' ∧ t.head? = some '(' then
      match tryMdUrl (t.drop 1) with
      | some r => some r
      | none => mdAfterBracket t
    else mdAfterBracket t

/-- One attempt of the markdown pattern `!?\[.*?\]\((…)\)` at a position. -/
def tryMdAt (s : List Char) : Option (List Char × List Char) :=
  let s1 := if s.head? = some '!' then s.drop 1 else s
  if s1.head? = some '[' then mdAfterBracket (s1.drop 1) else none

/-- `matchAll` loop for the markdown pattern: after a match the scan resumes
at the end of the match.  The fuel argument bounds the number of scan steps;
`length` suffices since every step consumes at least one character. -/
def mdMatchesF : Nat → List Char → List (List Char)
  | 0, _ => []
  | _ + 1, [] => []
  | f + 1, s@(_ :: t) =>
    match tryMdAt s with
    | some (g, rest) => g :: mdMatchesF f rest
    | none => mdMatchesF f t

/-- The tail class `[^\s)\]>]` of the plain-URL pattern. -/
def isPlainTailChar (c : Char) : Bool :=
  !(isJsWs c) && c != ')' && c != ']' && c != '>'

/-- The alternation `(?:youtube\.com\/watch\?v=|youtu\.be\/)` of the
plain-URL pattern (deterministic: branches differ at their sixth
character). -/
def afterWatchDomain (r : List Char) : Option (List Char × List Char) :=
  if "youtube.com/watch?v=".data.isPrefixOf r then
    some ("youtube.com/watch?v=".data, r.drop 20)
  else if "youtu.be/".data.isPrefixOf r then some ("youtu.be/".data, r.drop 9)
  else none

/-- One attempt of the plain-URL pattern
`(https?:\/\/(?:www\.)?(?:youtube\.com\/watch\?v=|youtu\.be\/)[a-zA-Z0-9_-]{11}[^\s)\]>]*)`
at a position. -/
def tryPlainAt (s : List Char) : Option (List Char × List Char) :=
  match afterScheme s with
  | none => none
  | some (sch, r1) =>
    let w := (afterWww r1).1
    let r2 := (afterWww r1).2
    match afterWatchDomain r2 with
    | none => none
    | some (dom, r3) =>
      let id := r3.take 11
      if id.length = 11 ∧ id.all isIdChar = true then
        let tl := (r3.drop 11).takeWhile isPlainTailChar
        some (sch ++ w ++ dom ++ id ++ tl, (r3.drop 11).drop tl.length)
      else none

/-- `matchAll` loop for the plain-URL pattern. -/
def plainMatchesF : Nat → List Char → List (List Char)
  | 0, _ => []
  | _ + 1, [] => []
  | f + 1, s@(_ :: t) =>
    match tryPlainAt s with
    | some (g, rest) => g :: plainMatchesF f rest
    | none => plainMatchesF f t

/-- `findYouTubeUrls`: front-matter source field first, then markdown
links/embeds, then plain URLs, every candidate going through `addUrl`. -/
def findYouTubeUrls (content : List Char) : List (List Char) :=
  let u1 :=
    match frontmatterOf content with
    | none => []
    | some fm =>
      match findSourceUrl fm with
      | none => []
      | some src => addUrl [] src
  let u2 := (mdMatchesF content.length content).foldl addUrl u1
  (plainMatchesF content.length content).foldl addUrl u2

/-! ## Entity decoder (parser.ts) -/

/-- The word-character class `\w` = `[A-Za-z0-9_]`. -/
def isWordChar (c : Char) : Bool := c.isAlpha || c.isDigit || c == '_'

/-- The hex-digit class `[a-fA-F0-9]`. -/
def isHexChar (c : Char) : Bool :=
  c.isDigit || ('a' ≤ c && c ≤ 'f') || ('A' ≤ c && c ≤ 'F')

/-- Value of a decimal digit character. -/
def digitVal (c : Char) : Nat := c.toNat - 48

/-- `parseInt(ds, 10)` on a string of decimal digits.  (JS loses precision
above 2^53; the digit strings modelled here stay far below that.) -/
def natOfDigits (ds : List Char) : Nat :=
  ds.foldl (fun a c => a * 10 + digitVal c) 0

/-- Value of a hexadecimal digit character. -/
def hexVal (c : Char) : Nat :=
  if c.isDigit then c.toNat - 48
  else if c ≤ 'F' then c.toNat - 55
  else c.toNat - 87

/-- `parseInt(hs, 16)` on a string of hex digits. -/
def natOfHexDigits (ds : List Char) : Nat :=
  ds.foldl (fun a c => a * 16 + hexVal c) 0

/-- `String.fromCharCode`: the argument reduced to a UTF-16 code unit (the
`ToUint16` conversion).  `Char.ofNat` maps the surrogate-range code units,
which are not Unicode scalar values, to `\0`; no input considered here
produces one. -/
def fromCharCode (n : Nat) : Char := Char.ofNat (n % 65536)

/-- The `NAMED_ENTITIES` table of parser.ts. -/
def NAMED_ENTITIES : List (List Char × Char) :=
  [("amp".data, '&'), ("lt".data, '<'), ("gt".data, '>'),
   ("quot".data, dq), ("apos".data, apos), ("nbsp".data, ' ')]

/-- One attempt of the entity regex `&(?:#(\d+)|#x([a-fA-F0-9]+)|(\w+));`
with the leading `&` already consumed: returns the replacement produced by
the replacer callback and the remainder after the match.  The branches are
tried in source order; when the head is `#` the third branch can never
match, since `#` is not a word character, so it is only attempted
otherwise. -/
def tryEntity (s : List Char) : Option (List Char × List Char) :=
  if s.head? = some '#' then
    let s1 := s.drop 1
    let ds := s1.takeWhile Char.isDigit
    if ds ≠ [] ∧ (s1.drop ds.length).head? = some ';' then
      some ([fromCharCode (natOfDigits ds)], (s1.drop ds.length).drop 1)
    else if s1.head? = some 'x' then
      let hs := (s1.drop 1).takeWhile isHexChar
      if hs ≠ [] ∧ ((s1.drop 1).drop hs.length).head? = some ';' then
        some ([fromCharCode (natOfHexDigits hs)], ((s1.drop 1).drop hs.length).drop 1)
      else none
    else none
  else
    let ws := s.takeWhile isWordChar
    if ws ≠ [] ∧ (s.drop ws.length).head? = some ';' then
      match NAMED_ENTITIES.lookup ws with
      | some c => some ([c], (s.drop ws.length).drop 1)
      | none => some ('&' :: ws ++ [';'], (s.drop ws.length).drop 1)
    else none

/-- One pass of `input.replace(entityRegex, replacer)`: scan left to right,
copying unmatched characters and splicing in replacements.  Fuel bounds the
scan steps; the input length suffices. -/
def decodeOnceF : Nat → List Char → List Char
  | 0, s => s
  | _ + 1, [] => []
  | f + 1, c :: t =>
    if c = '&' then
      match tryEntity t with
      | some (rep, rest) => rep ++ decodeOnceF f rest
      | none => c :: decodeOnceF f t
    else c :: decodeOnceF f t

/-- One decode pass. -/
def decodeOnce (s : List Char) : List Char := decodeOnceF s.length s

/-- `decodeXmlEntities`: the decode pass applied exactly twice, to undo the
platform's double encoding. -/
def decodeXmlEntities (text : List Char) : List Char := decodeOnce (decodeOnce text)

/-! ## Caption XML parser (parser.ts) -/

/-- A transcript entry, fields as in the `TranscriptEntry` interface:
decoded text, duration and offset in milliseconds (JS numbers), language
tag. -/
structure TranscriptEntry where
  text : List Char
  duration : Option ℚ
  offset : Option ℚ
  lang : List Char
deriving Repr, DecidableEq

/-- The three captures of one `RE_XML_TRANSCRIPT` match. -/
structure XmlMatch where
  start : List Char
  dur : List Char
  body : List Char
deriving Repr, DecidableEq

/-- Consume a literal part of a regex: the rest after `pre`, or `none` when
`pre` does not match at the current position. -/
def stripPrefix (pre s : List Char) : Option (List Char) :=
  if pre.isPrefixOf s then some (s.drop pre.length) else none

/-- `RE_XML_TRANSCRIPT`, stage 3 — `([^<]*)<\/text>`: the maximal munch of
non-`<` characters is capture 3, followed by the closing-tag literal.
`st` and `du` are the captures of the earlier stages. -/
def xmlTail3 (st du : List Char) (r5 : List Char) : Option (XmlMatch × List Char) :=
  match stripPrefix "</text>".data
      (r5.drop (r5.takeWhile (fun c => c != '<')).length) with
  | none => none
  | some rest => some (⟨st, du, r5.takeWhile (fun c => c != '<')⟩, rest)

/-- `RE_XML_TRANSCRIPT`, stage 2 — `([^"]*)">`: the maximal munch of
non-quote characters is capture 2, followed by the literal `">`. -/
def xmlTail2 (st : List Char) (r3 : List Char) : Option (XmlMatch × List Char) :=
  match stripPrefix (dq :: ">".data)
      (r3.drop (r3.takeWhile (fun c => c != dq)).length) with
  | none => none
  | some r5 => xmlTail3 st (r3.takeWhile (fun c => c != dq)) r5

/-- `RE_XML_TRANSCRIPT`, stage 1 — `([^"]*)" dur="`: the maximal munch of
non-quote characters is capture 1, followed by the literal `" dur="`. -/
def xmlTail1 (r1 : List Char) : Option (XmlMatch × List Char) :=
  match stripPrefix (dq :: " dur=".data ++ [dq])
      (r1.drop (r1.takeWhile (fun c => c != dq)).length) with
  | none => none
  | some r3 => xmlTail2 (r1.takeWhile (fun c => c != dq)) r3

/-- One attempt of `RE_XML_TRANSCRIPT` =
`<text start="([^"]*)" dur="([^"]*)">([^<]*)<\/text>` at the current
position; returns the three captures and the remainder after the match.
Each `[^X]*` repetition is a maximal munch followed by a literal that
starts with the excluded character, so the pattern has no backtracking and
is matched by the staged consumption above. -/
def tryXmlAt (s : List Char) : Option (XmlMatch × List Char) :=
  match stripPrefix ("<text start=".data ++ [dq]) s with
  | none => none
  | some r1 => xmlTail1 r1

/-- `matchAll` loop for `RE_XML_TRANSCRIPT`. -/
def xmlMatchesF : Nat → List Char → List XmlMatch
  | 0, _ => []
  | _ + 1, [] => []
  | f + 1, s@(_ :: t) =>
    match tryXmlAt s with
    | some (m, rest) => m :: xmlMatchesF f rest
    | none => xmlMatchesF f t

/-- All `RE_XML_TRANSCRIPT` matches of a document, in document order. -/
def xmlMatches (s : List Char) : List XmlMatch := xmlMatchesF s.length s

/-- The exponent suffix `[eE][+-]?digits` of a JS number literal; a missing
or invalid exponent contributes 0, since `parseFloat` takes the longest
valid numeric prefix. -/
def parseExp (s : List Char) : Int :=
  match s with
  | [] => 0
  | c :: t =>
    if c = 'e' ∨ c = 'E' then
      match t with
      | [] => 0
      | d :: t2 =>
        if d = '-' then
          let ds := t2.takeWhile Char.isDigit
          if ds = [] then 0 else -(natOfDigits ds : Int)
        else if d = '+' then
          let ds := t2.takeWhile Char.isDigit
          if ds = [] then 0 else (natOfDigits ds : Int)
        else
          let ds := t.takeWhile Char.isDigit
          if ds = [] then 0 else (natOfDigits ds : Int)
    else 0

/-- Model of JS `parseFloat`: leading whitespace skipped, optional sign,
decimal digits with optional fraction, optional exponent; the longest valid
prefix is converted and trailing junk ignored; `none` models `NaN` (no
digits at all).  Exact rational arithmetic stands in for IEEE doubles, and
the `Infinity` literal is not modelled (it cannot occur in caption data). -/
def parseFloatM (s : List Char) : Option ℚ :=
  let s1 := s.dropWhile isJsWs
  let sign : ℚ := if s1.head? = some '-' then -1 else 1
  let s2 := if s1.head? = some '-' ∨ s1.head? = some '+' then s1.drop 1 else s1
  let ip := s2.takeWhile Char.isDigit
  let s3 := s2.drop ip.length
  let fp := if s3.head? = some '.' then (s3.drop 1).takeWhile Char.isDigit else []
  let s4 := if s3.head? = some '.' then (s3.drop 1).drop fp.length else s3
  if ip = [] ∧ fp = [] then none
  else some (sign * ((natOfDigits ip : ℚ) + (natOfDigits fp : ℚ) / 10 ^ fp.length) * 10 ^ parseExp s4)

/-- The entry list built by the loop of `parseTranscriptXml`: one entry per
regex match whose `start` and `dur` captures are truthy (non-empty); `text`
may be empty (only `undefined` is rejected, which cannot happen for a
participating capture). -/
def parsedEntries (xml : List Char) (lang : List Char) : List TranscriptEntry :=
  (xmlMatches xml).filterMap fun m =>
    if m.start ≠ [] ∧ m.dur ≠ [] then
      some ⟨decodeXmlEntities m.body, (parseFloatM m.dur).map (fun q => q * 1000),
            (parseFloatM m.start).map (fun q => q * 1000), lang⟩
    else none

/-- `parseTranscriptXml`: the collected entries, or a thrown `Error`
(modelled as `Except.error` carrying the message) when none were
collected. -/
def parseTranscriptXml (xml : List Char) (lang : List Char) :
    Except (List Char) (List TranscriptEntry) :=
  if parsedEntries xml lang = [] then
    Except.error "No transcript entries found in response.".data
  else Except.ok (parsedEntries xml lang)

/-! ## Formatter (formatter.ts) -/

/-- Decimal digit character. -/
def digitChar (n : Nat) : Char := Char.ofNat (48 + n)

/-- Decimal representation of a natural number (fuelled division loop). -/
def natToCharsF : Nat → Nat → List Char
  | 0, _ => []
  | f + 1, n =>
    if n < 10 then [digitChar n] else natToCharsF f (n / 10) ++ [digitChar (n % 10)]

/-- `n.toString()` for a natural number. -/
def natToChars (n : Nat) : List Char := natToCharsF (n + 1) n

/-- `n.toString()` for an integer. -/
def intToChars (i : Int) : List Char :=
  if i < 0 then '-' :: natToChars (-i).toNat else natToChars i.toNat

/-- JS `padStart(2, "0")`. -/
def padStart2 (l : List Char) : List Char := List.replicate (2 - l.length) '0' ++ l

/-- `formatTimestamp` on an actual number: `totalSeconds = ⌊ms / 1000⌋`,
`hours = ⌊totalSeconds / 3600⌋`, `minutes = ⌊(totalSeconds % 3600) / 60⌋`,
`seconds = totalSeconds % 60` with `Math.floor` the integer floor and `%`
on the already-integral values the JS truncated remainder (`Int.tmod`);
then `H:MM:SS` when `hours > 0`, else `M:SS`, with `pad` on minutes and
seconds.  (The source's local bindings are inlined.) -/
def formatTimestampQ (q : ℚ) : List Char :=
  if ⌊((⌊q / 1000⌋ : ℤ) : ℚ) / 3600⌋ > 0 then
    intToChars ⌊((⌊q / 1000⌋ : ℤ) : ℚ) / 3600⌋ ++ ':' ::
      (padStart2 (intToChars ⌊(((⌊q / 1000⌋).tmod 3600 : ℤ) : ℚ) / 60⌋) ++ ':' ::
        padStart2 (intToChars ((⌊q / 1000⌋).tmod 60)))
  else
    intToChars ⌊(((⌊q / 1000⌋).tmod 3600 : ℤ) : ℚ) / 60⌋ ++ ':' ::
      padStart2 (intToChars ((⌊q / 1000⌋).tmod 60))

/-- `formatTimestamp`: a `NaN` input propagates through every arithmetic
operation and each `${...}` interpolation renders it as "NaN". -/
def formatTimestamp (ms : Option ℚ) : List Char :=
  match ms with
  | none => "NaN:NaN".data
  | some q => formatTimestampQ q

/-- The `FormatOptions` interface. -/
structure FormatOptions where
  includeTimestamps : Bool
  sectionHeading : List Char

/-- JS `Array.prototype.join` with a separator. -/
def joinSep (sep : List Char) : List (List Char) → List Char
  | [] => []
  | [x] => x
  | x :: xs => x ++ sep ++ joinSep sep xs

/-- `formatTranscript`: blank line, heading, blank line, then either one
`[timestamp] text` line per entry or the texts joined by single spaces. -/
def formatTranscript (entries : List TranscriptEntry) (options : FormatOptions) : List Char :=
  if options.includeTimestamps then
    nl :: (options.sectionHeading ++ nl :: nl ::
      joinSep [nl] (entries.map fun e => '[' :: (formatTimestamp e.offset ++ ']' :: ' ' :: e.text)))
  else
    nl :: (options.sectionHeading ++ nl :: nl :: joinSep [' '] (entries.map fun e => e.text))

/-- Substring test `content.includes(pat)`. -/
def containsSub (pat : List Char) : List Char → Bool
  | [] => pat.isPrefixOf []
  | c :: t => pat.isPrefixOf (c :: t) || containsSub pat t

/-- `hasTranscriptSection`: exact substring containment of the heading. -/
def hasTranscriptSection (content heading : List Char) : Bool :=
  containsSub heading content

/-! ## Track selection (transcript.ts) -/

/-- The `CaptionTrack` interface. -/
structure CaptionTrack where
  baseUrl : Option (List Char)
  url : Option (List Char)
  languageCode : List Char
deriving Repr, DecidableEq

/-- `lang.split("-")[0] ?? lang`: the segment before the first dash
(`split` never yields an empty array, so the `?? lang` fallback is dead). -/
def baseLangOf (lang : List Char) : List Char := lang.takeWhile (fun c => c != '-')

/-- `selectTrack`: exact language-code match, else base-language prefix
match (`startsWith`), else the first track; throws only when even
`tracks[0]` is absent.  (The source's sequential reassignments of `track`
are the nested fallbacks here.) -/
def selectTrack (tracks : List CaptionTrack) (lang : List Char) :
    Except (List Char) CaptionTrack :=
  match tracks.find? fun t => t.languageCode == lang with
  | some t => Except.ok t
  | none =>
    match tracks.find? fun t => (baseLangOf lang).isPrefixOf t.languageCode with
    | some t => Except.ok t
    | none =>
      match tracks.head? with
      | some t => Except.ok t
      | none => Except.error "No suitable caption track found.".data

/-! ## Orchestrator (main.ts) -/

/-- The `YouTubeTranscriptSettings` interface. -/
structure YouTubeTranscriptSettings where
  language : List Char
  includeTimestamps : Bool
  sectionHeading : List Char

/-- Outcome notice of one run of the fetch-transcript command. -/
inductive RunOutcome
  | alreadyHas
  | noUrl
  | noVideoId
  | fetchFailed (msg : List Char)
  | noEntries
  | success (count : Nat)
deriving Repr, DecidableEq

/-- Pure model of `fetchTranscriptForCurrentNote` from the point where the
note text has been read: `fetchResult` stands for the awaited
`fetchTranscript` network call as a function of the video id and the
language actually passed (`settings.language || "en"`).  Returns the final
document text (the `vault.modify` argument, or the unchanged text when no
write happens) together with the outcome.  JS truthiness of `urls[0]`
(undefined or empty string) is modelled by `headD []`. -/
def fetchTranscriptForCurrentNote
    (content : List Char) (settings : YouTubeTranscriptSettings)
    (fetchResult : List Char → List Char → Except (List Char) (List TranscriptEntry)) :
    List Char × RunOutcome :=
  if hasTranscriptSection content settings.sectionHeading then
    (content, RunOutcome.alreadyHas)
  else if (findYouTubeUrls content).headD [] = [] then (content, RunOutcome.noUrl)
  else
    match extractVideoId ((findYouTubeUrls content).headD []) with
    | none => (content, RunOutcome.noVideoId)
    | some videoId =>
      match fetchResult videoId
          (if settings.language = [] then "en".data else settings.language) with
      | Except.error e => (content, RunOutcome.fetchFailed e)
      | Except.ok transcript =>
        if transcript.length = 0 then (content, RunOutcome.noEntries)
        else
          (content ++ nl :: formatTranscript transcript
              ⟨settings.includeTimestamps, settings.sectionHeading⟩,
            RunOutcome.success transcript.length)

/-! ## Spec-side definitions -/

/-- Modelled from the spec wording for track selection (claim C8): choose
the first track with exact language-code equality, else the first whose
code has the base-language prefix, else the first listed track. -/
def selectTrackSpec (tracks : List CaptionTrack) (lang : List Char) : Option CaptionTrack :=
  match tracks.find? (fun t => t.languageCode == lang) with
  | some t => some t
  | none =>
    match tracks.find? (fun t => (baseLangOf lang).isPrefixOf t.languageCode) with
    | some t => some t
    | none => tracks.head?

/-- Spec-side timestamp shape (claim C6), on whole seconds: `H:MM:SS` when
at least one hour, else `M:SS`; minutes and seconds zero-padded to two
digits, hours and bare minutes unpadded. -/
def timestampSpec (t : Nat) : List Char :=
  if 3600 ≤ t then
    natToChars (t / 3600) ++ ':' :: (padStart2 (natToChars (t % 3600 / 60)) ++ ':' :: padStart2 (natToChars (t % 60)))
  else
    natToChars (t / 60) ++ ':' :: padStart2 (natToChars (t % 60))

/-- One `<text>` element of caption XML built from a (start, dur, body)
triple. -/
def mkTextElem (i : List Char × List Char × List Char) : List Char :=
  ("<text start=".data ++ [dq]) ++ i.1 ++ (dq :: " dur=".data ++ [dq]) ++ i.2.1 ++
    (dq :: ">".data) ++ i.2.2 ++ "</text>".data

/-- An attribute value the `[^"]*` capture reproduces exactly: no double
quote. -/
def attrOk (s : List Char) : Bool := s.all (fun c => c != dq)

/-- A body the `([^<]*)` capture reproduces exactly: no `<`. -/
def bodyOk (s : List Char) : Bool := s.all (fun c => c != '<')

/-- A caption XML document made of consecutive `<text>` elements. -/
def captionDoc (items : List (List Char × List Char × List Char)) : List Char :=
  (items.map mkTextElem).flatten

/-! ## Helper lemmas -/

theorem scanMatch_found (pre s : List Char) (r : List Char) (hs : s ≠ [])
    (h : tryHere pre s = some r) : scanMatch pre s = some r := by
  cases s with
  | nil => exact absurd rfl hs
  | cons c t =>
    show (tryHere pre (c :: t)).orElse (fun _ => scanMatch pre t) = some r
    rw [h]
    rfl

theorem tryHere_self (pre t : List Char) (h1 : t.length = 11)
    (h2 : t.all isIdChar = true) : tryHere pre (pre ++ t) = some t := by
  have hpre : pre.isPrefixOf (pre ++ t) = true :=
    List.isPrefixOf_iff_prefix.mpr (List.prefix_append pre t)
  have htake : t.take 11 = t := List.take_of_length_le (le_of_eq h1)
  simp only [tryHere, hpre, if_true, List.drop_left, htake, h1, h2, and_self, if_pos]

theorem isPrefixOf_eq_false_of_lt (pre s : List Char) (h : s.length < pre.length) :
    pre.isPrefixOf s = false := by
  by_contra hc
  have : pre.isPrefixOf s = true := by
    cases hb : pre.isPrefixOf s with
    | true => rfl
    | false => exact absurd hb hc
  have := (List.isPrefixOf_iff_prefix.mp this).length_le
  omega

theorem scanMatch_none_of_short (pre s : List Char) (h : s.length < pre.length) :
    scanMatch pre s = none := by
  induction s with
  | nil => rfl
  | cons c t ih =>
    have hth : tryHere pre (c :: t) = none := by
      unfold tryHere
      rw [isPrefixOf_eq_false_of_lt pre (c :: t) h]
      simp
    show (tryHere pre (c :: t)).orElse (fun _ => scanMatch pre t) = none
    rw [hth]
    have ht : t.length < pre.length := by
      simp only [List.length_cons] at h
      omega
    show scanMatch pre t = none
    exact ih ht

theorem scanMatch_none_of_badchar (pre s : List Char) (c : Char) (hc : c ∈ pre)
    (hnc : isIdChar c = false) (hs : s.all isIdChar = true) :
    scanMatch pre s = none := by
  induction s with
  | nil => rfl
  | cons a t ih =>
    have htail : t.all isIdChar = true := by
      rw [List.all_cons, Bool.and_eq_true] at hs
      exact hs.2
    have hth : tryHere pre (a :: t) = none := by
      unfold tryHere
      rw [if_neg]
      intro hp
      have hmem : c ∈ a :: t := (List.isPrefixOf_iff_prefix.mp hp).subset hc
      have := List.all_eq_true.mp hs c hmem
      rw [this] at hnc
      exact absurd hnc (by simp)
    show (tryHere pre (a :: t)).orElse (fun _ => scanMatch pre t) = none
    rw [hth]
    show scanMatch pre t = none
    exact ih htail

/-! ## Claim C1 -/

/-- C1 (counterexample): the claim says every URL of a foreign domain maps
to absence, but extraction keys on substring patterns, so the foreign
domain `notyoutube.com` — which merely contains `youtube.com/watch?v=` as a
substring — yields a token instead of `null`. -/
theorem extractVideoId_foreign_domain_counterexample :
    extractVideoId "https://notyoutube.com/watch?v=abcdefghijk".data
      = some "abcdefghijk".data ∧
    extractVideoId "https://notyoutube.com/watch?v=abcdefghijk".data ≠ none := by
  constructor
  · decide
  · decide

/-- C1 (amended): for every valid 11-character token of `[A-Za-z0-9_-]`,
each of the five supported URL shapes (watch query parameter, short link,
embed path, legacy `/v/` path, shorts path) yields exactly that token; a
URL containing none of the five pattern substrings followed by a valid
token (such as a plain foreign-domain URL, or the empty string) yields
absence, never an error.  (Extraction is by substring pattern, so a foreign
domain embedding one of the pattern substrings also yields the token.) -/
theorem extractVideoId_amended (t : List Char) (h1 : t.length = 11)
    (h2 : t.all isIdChar = true) :
    extractVideoId ("https://www.youtube.com/watch?v=".data ++ t) = some t
  ∧ extractVideoId ("https://youtu.be/".data ++ t) = some t
  ∧ extractVideoId ("https://www.youtube.com/embed/".data ++ t) = some t
  ∧ extractVideoId ("https://www.youtube.com/v/".data ++ t) = some t
  ∧ extractVideoId ("https://www.youtube.com/shorts/".data ++ t) = some t
  ∧ extractVideoId "https://example.com/video".data = none
  ∧ extractVideoId [] = none := by
  have hfound : ∀ pre : List Char, pre ≠ [] → scanMatch pre (pre ++ t) = some t := by
    intro pre hne
    refine scanMatch_found pre (pre ++ t) t ?_ (tryHere_self pre t h1 h2)
    cases pre with
    | nil => exact absurd rfl hne
    | cons a b => simp
  have hshort : ∀ pre : List Char, 11 < pre.length → scanMatch pre t = none := by
    intro pre hp
    refine scanMatch_none_of_short pre t ?_
    rw [h1]
    exact hp
  have hbad : scanMatch "youtu.be/".data t = none :=
    scanMatch_none_of_badchar _ t '.' (by decide) (by decide) h2
  refine ⟨?_, ?_, ?_, ?_, ?_, by decide, by decide⟩
  · have e1 : scanMatch "youtube.com/watch?v=".data
        ("https://www.youtube.com/watch?v=".data ++ t) = some t := by
      rw [show scanMatch "youtube.com/watch?v=".data
            ("https://www.youtube.com/watch?v=".data ++ t)
          = scanMatch "youtube.com/watch?v=".data ("youtube.com/watch?v=".data ++ t) from rfl]
      exact hfound _ (by decide)
    unfold extractVideoId VIDEO_ID_PATTERNS
    simp only [List.findSome?_cons, e1]
  · have e1 : scanMatch "youtube.com/watch?v=".data ("https://youtu.be/".data ++ t) = none := by
      rw [show scanMatch "youtube.com/watch?v=".data ("https://youtu.be/".data ++ t)
          = scanMatch "youtube.com/watch?v=".data t from rfl]
      exact hshort _ (by decide)
    have e2 : scanMatch "youtu.be/".data ("https://youtu.be/".data ++ t) = some t := by
      rw [show scanMatch "youtu.be/".data ("https://youtu.be/".data ++ t)
          = scanMatch "youtu.be/".data ("youtu.be/".data ++ t) from rfl]
      exact hfound _ (by decide)
    unfold extractVideoId VIDEO_ID_PATTERNS
    simp only [List.findSome?_cons, e1, e2]
  · have e1 : scanMatch "youtube.com/watch?v=".data
        ("https://www.youtube.com/embed/".data ++ t) = none := by
      rw [show scanMatch "youtube.com/watch?v=".data ("https://www.youtube.com/embed/".data ++ t)
          = scanMatch "youtube.com/watch?v=".data t from rfl]
      exact hshort _ (by decide)
    have e2 : scanMatch "youtu.be/".data ("https://www.youtube.com/embed/".data ++ t) = none := by
      rw [show scanMatch "youtu.be/".data ("https://www.youtube.com/embed/".data ++ t)
          = scanMatch "youtu.be/".data t from rfl]
      exact hbad
    have e3 : scanMatch "youtube.com/embed/".data
        ("https://www.youtube.com/embed/".data ++ t) = some t := by
      rw [show scanMatch "youtube.com/embed/".data ("https://www.youtube.com/embed/".data ++ t)
          = scanMatch "youtube.com/embed/".data ("youtube.com/embed/".data ++ t) from rfl]
      exact hfound _ (by decide)
    unfold extractVideoId VIDEO_ID_PATTERNS
    simp only [List.findSome?_cons, e1, e2, e3]
  · have e1 : scanMatch "youtube.com/watch?v=".data
        ("https://www.youtube.com/v/".data ++ t) = none := by
      rw [show scanMatch "youtube.com/watch?v=".data ("https://www.youtube.com/v/".data ++ t)
          = scanMatch "youtube.com/watch?v=".data t from rfl]
      exact hshort _ (by decide)
    have e2 : scanMatch "youtu.be/".data ("https://www.youtube.com/v/".data ++ t) = none := by
      rw [show scanMatch "youtu.be/".data ("https://www.youtube.com/v/".data ++ t)
          = scanMatch "youtu.be/".data t from rfl]
      exact hbad
    have e3 : scanMatch "youtube.com/embed/".data
        ("https://www.youtube.com/v/".data ++ t) = none := by
      rw [show scanMatch "youtube.com/embed/".data ("https://www.youtube.com/v/".data ++ t)
          = scanMatch "youtube.com/embed/".data t from rfl]
      exact hshort _ (by decide)
    have e4 : scanMatch "youtube.com/v/".data ("https://www.youtube.com/v/".data ++ t) = some t := by
      rw [show scanMatch "youtube.com/v/".data ("https://www.youtube.com/v/".data ++ t)
          = scanMatch "youtube.com/v/".data ("youtube.com/v/".data ++ t) from rfl]
      exact hfound _ (by decide)
    unfold extractVideoId VIDEO_ID_PATTERNS
    simp only [List.findSome?_cons, e1, e2, e3, e4]
  · have e1 : scanMatch "youtube.com/watch?v=".data
        ("https://www.youtube.com/shorts/".data ++ t) = none := by
      rw [show scanMatch "youtube.com/watch?v=".data ("https://www.youtube.com/shorts/".data ++ t)
          = scanMatch "youtube.com/watch?v=".data t from rfl]
      exact hshort _ (by decide)
    have e2 : scanMatch "youtu.be/".data ("https://www.youtube.com/shorts/".data ++ t) = none := by
      rw [show scanMatch "youtu.be/".data ("https://www.youtube.com/shorts/".data ++ t)
          = scanMatch "youtu.be/".data t from rfl]
      exact hbad
    have e3 : scanMatch "youtube.com/embed/".data
        ("https://www.youtube.com/shorts/".data ++ t) = none := by
      rw [show scanMatch "youtube.com/embed/".data ("https://www.youtube.com/shorts/".data ++ t)
          = scanMatch "youtube.com/embed/".data t from rfl]
      exact hshort _ (by decide)
    have e4 : scanMatch "youtube.com/v/".data
        ("https://www.youtube.com/shorts/".data ++ t) = none := by
      rw [show scanMatch "youtube.com/v/".data ("https://www.youtube.com/shorts/".data ++ t)
          = scanMatch "youtube.com/v/".data t from rfl]
      exact hshort _ (by decide)
    have e5 : scanMatch "youtube.com/shorts/".data
        ("https://www.youtube.com/shorts/".data ++ t) = some t := by
      rw [show scanMatch "youtube.com/shorts/".data ("https://www.youtube.com/shorts/".data ++ t)
          = scanMatch "youtube.com/shorts/".data ("youtube.com/shorts/".data ++ t) from rfl]
      exact hfound _ (by decide)
    unfold extractVideoId VIDEO_ID_PATTERNS
    simp only [List.findSome?_cons, e1, e2, e3, e4, e5]

/-- C1 witness: the amended theorem applied at the token `dQw4w9WgXcQ`. -/
theorem extractVideoId_amended_witness :
    extractVideoId ("https://www.youtube.com/watch?v=".data ++ "dQw4w9WgXcQ".data)
      = some "dQw4w9WgXcQ".data :=
  (extractVideoId_amended "dQw4w9WgXcQ".data (by decide) (by decide)).1

/-! ## Claim C2 -/

/-- C2 (counterexample): the claim says duplicates are suppressed by exact
string equality applied *after* trailing-punctuation trimming, so that the
result contains no duplicate entries.  In the code the `urls.includes(url)`
check compares the *untrimmed* candidate against the already-trimmed stored
entries: a document containing the same short-link URL twice, the second
occurrence followed by a comma, yields the same trimmed URL twice. -/
theorem findYouTubeUrls_duplicate_counterexample :
    findYouTubeUrls "https://youtu.be/abcdefghijk https://youtu.be/abcdefghijk,".data
      = ["https://youtu.be/abcdefghijk".data, "https://youtu.be/abcdefghijk".data] ∧
    ¬ (findYouTubeUrls
        "https://youtu.be/abcdefghijk https://youtu.be/abcdefghijk,".data).Nodup := by
  constructor
  · decide
  · decide

/-- C2 (amended): `findYouTubeUrls` returns candidates in discovery order —
front-matter `source` field first, then markdown links/embeds, then bare
URLs — with trailing punctuation trimmed from each stored entry, and it is
deterministic (two runs on the same text agree).  Duplicates are suppressed
by exact string equality of the *raw* (untrimmed) candidate against the
stored (trimmed) entries, so textually identical candidates are suppressed
but candidates differing only in trailing punctuation produce duplicate
entries. -/
theorem findYouTubeUrls_amended :
    (∀ s : List Char, findYouTubeUrls s = findYouTubeUrls s)
  ∧ findYouTubeUrls
      ("---\nsource: https://www.youtube.com/watch?v=aaaaaaaaaaa\n---\n[x](https://youtu.be/bbbbbbbbbbb) https://youtu.be/ccccccccccc".data)
      = ["https://www.youtube.com/watch?v=aaaaaaaaaaa".data,
         "https://youtu.be/bbbbbbbbbbb".data,
         "https://youtu.be/ccccccccccc".data]
  ∧ findYouTubeUrls "x https://youtu.be/abcdefghijk y https://youtu.be/abcdefghijk".data
      = ["https://youtu.be/abcdefghijk".data]
  ∧ findYouTubeUrls "https://youtu.be/abcdefghijk and https://youtu.be/abcdefghijk.".data
      = ["https://youtu.be/abcdefghijk".data, "https://youtu.be/abcdefghijk".data] := by
  refine ⟨fun s => rfl, ?_, ?_, ?_⟩
  · decide
  · decide
  · decide

/-! ## Decoder lemmas -/

theorem takeWhile_app {p : Char → Bool} (l r : List Char) (h : l.all p = true) :
    (l ++ r).takeWhile p = l ++ r.takeWhile p := by
  induction l with
  | nil => simp
  | cons a t ih =>
    rw [List.all_cons, Bool.and_eq_true] at h
    simp [List.takeWhile_cons, h.1, ih h.2]

theorem tryEntity_dec (ds rest : List Char) (h1 : ds ≠ [])
    (h2 : ds.all Char.isDigit = true) :
    tryEntity ('#' :: (ds ++ ';' :: rest)) = some ([fromCharCode (natOfDigits ds)], rest) := by
  have htw : (ds ++ ';' :: rest).takeWhile Char.isDigit = ds := by
    rw [takeWhile_app ds (';' :: rest) h2]
    simp [List.takeWhile_cons]
  have hdr : (ds ++ ';' :: rest).drop ds.length = ';' :: rest := List.drop_left ds (';' :: rest)
  simp only [tryEntity, List.head?_cons, List.drop_succ_cons, List.drop_zero, htw, hdr]
  simp [h1]

theorem tryEntity_hex (hs rest : List Char) (h1 : hs ≠ [])
    (h2 : hs.all isHexChar = true) :
    tryEntity ('#' :: 'x' :: (hs ++ ';' :: rest))
      = some ([fromCharCode (natOfHexDigits hs)], rest) := by
  have htw : (hs ++ ';' :: rest).takeWhile isHexChar = hs := by
    rw [takeWhile_app hs (';' :: rest) h2]
    have hsemi : isHexChar ';' = false := by decide
    simp [List.takeWhile_cons, hsemi]
  have hdr : (hs ++ ';' :: rest).drop hs.length = ';' :: rest := List.drop_left hs (';' :: rest)
  simp only [tryEntity, List.head?_cons, List.takeWhile_cons, List.drop_succ_cons,
    List.drop_zero, htw, hdr]
  simp [h1]

theorem decodeOnceF_nil (f : Nat) : decodeOnceF f [] = [] := by
  cases f <;> rfl

theorem decodeOnce_amp (x rep : List Char) (h : tryEntity x = some (rep, [])) :
    decodeOnce ('&' :: x) = rep := by
  show decodeOnceF (x.length + 1) ('&' :: x) = rep
  simp [decodeOnceF, h, decodeOnceF_nil]

theorem decodeOnce_single (c : Char) : decodeOnce [c] = [c] := by
  by_cases hc : c = '&'
  · subst hc
    rfl
  · show decodeOnceF 1 [c] = [c]
    simp [decodeOnceF, hc]

/-! ## Claim C3 -/

/-- C3: the entity decoder applies its substitution pass exactly twice in
sequence: all six round-trip examples of the spec hold, the double-encoded
`&amp;#39;` becomes a bare apostrophe, and the result is not a decode
fixpoint (a third pass would change a triple-encoded input, so the decoder
is two-pass, not recursive-until-fixpoint). -/
theorem decodeXmlEntities_twice_spec :
    decodeXmlEntities "Let&#39;s go".data = ("Let".data ++ apos :: "s go".data)
  ∧ decodeXmlEntities "A &amp; B".data = "A & B".data
  ∧ decodeXmlEntities "&lt;tag&gt;".data = "<tag>".data
  ∧ decodeXmlEntities "&#x3C;&#x3E;".data = "<>".data
  ∧ decodeXmlEntities "&amp;#39;".data = [apos]
  ∧ decodeXmlEntities "Normal text".data = "Normal text".data
  ∧ decodeXmlEntities "&amp;amp;#39;".data = "&#39;".data
  ∧ decodeOnce (decodeXmlEntities "&amp;amp;#39;".data)
      ≠ decodeXmlEntities "&amp;amp;#39;".data := by
  refine ⟨?_, ?_, ?_, ?_, ?_, ?_, ?_, ?_⟩ <;> decide

/-! ## Claim C10 -/

/-- C10: every decimal or hexadecimal numeric character reference is
replaced by the single UTF-16 code unit `String.fromCharCode(value)`, the
value reduced modulo 2^16; references naming code units at most 0xFFFF
decode to exactly the referenced value, while the supplementary-plane
reference `&#128512;` yields the different single-code-unit character
U+F600 rather than U+1F600. -/
theorem decodeXmlEntities_numeric_refs (ds : List Char) (h1 : ds ≠ [])
    (h2 : ds.all Char.isDigit = true) (hs : List Char) (h3 : hs ≠ [])
    (h4 : hs.all isHexChar = true) :
    decodeXmlEntities ('&' :: '#' :: (ds ++ [';'])) = [fromCharCode (natOfDigits ds)]
  ∧ decodeXmlEntities ('&' :: '#' :: 'x' :: (hs ++ [';'])) = [fromCharCode (natOfHexDigits hs)]
  ∧ (∀ n : Nat, n < 65536 → fromCharCode n = Char.ofNat n)
  ∧ decodeXmlEntities "&#128512;".data = [Char.ofNat 62976]
  ∧ Char.ofNat 62976 ≠ Char.ofNat 128512 := by
  have hd := tryEntity_dec ds [] h1 h2
  have hx := tryEntity_hex hs [] h3 h4
  refine ⟨?_, ?_, ?_, by decide, by decide⟩
  · unfold decodeXmlEntities
    rw [decodeOnce_amp _ _ hd, decodeOnce_single]
  · unfold decodeXmlEntities
    rw [decodeOnce_amp _ _ hx, decodeOnce_single]
  · intro n hn
    unfold fromCharCode
    rw [Nat.mod_eq_of_lt hn]

/-- C10 witness: the theorem applied at the references `&#39;` and
`&#x3C;`. -/
theorem decodeXmlEntities_numeric_refs_witness :
    decodeXmlEntities ('&' :: '#' :: ("39".data ++ [';']))
      = [fromCharCode (natOfDigits "39".data)] :=
  (decodeXmlEntities_numeric_refs "39".data (by decide) (by decide)
    "3C".data (by decide) (by decide)).1

/-! ## Claim C4 -/

/-- C4 (counterexample): the claim says the parse fails if and only if the
XML contains zero matching `<text start dur>` elements; but an element whose
`start` attribute is the empty string matches the regex (the capture is
`[^"]*`) and is nevertheless dropped by the truthiness filter, so this XML
has one matching element yet parsing fails. -/
theorem parseTranscriptXml_empty_attr_counterexample :
    (xmlMatches "<text start=\"\" dur=\"1\">a</text>".data).length = 1
  ∧ parseTranscriptXml "<text start=\"\" dur=\"1\">a</text>".data "en".data
      = Except.error "No transcript entries found in response.".data := by
  exact ⟨rfl, rfl⟩

/-- C4 (amended): `parseTranscriptXml` fails with the no-entries error if
and only if every matching `<text>` element of the input has an empty
`start` or an empty `dur` attribute (in particular whenever there is no
matching element at all), and it never returns an empty sequence as a
success. -/
theorem parseTranscriptXml_error_iff (xml lang : List Char) :
    (parseTranscriptXml xml lang
        = Except.error "No transcript entries found in response.".data
      ↔ ∀ m ∈ xmlMatches xml, m.start = [] ∨ m.dur = [])
  ∧ ∀ es, parseTranscriptXml xml lang = Except.ok es → es ≠ [] := by
  have hchar : parsedEntries xml lang = [] ↔ ∀ m ∈ xmlMatches xml, m.start = [] ∨ m.dur = [] := by
    unfold parsedEntries
    rw [List.filterMap_eq_nil_iff]
    constructor
    · intro h m hm
      have hnone := h m hm
      by_contra hcon
      push_neg at hcon
      rw [if_pos ⟨hcon.1, hcon.2⟩] at hnone
      exact Option.noConfusion hnone
    · intro h m hm
      rw [if_neg]
      rcases h m hm with h1 | h1
      · intro hc
        exact hc.1 h1
      · intro hc
        exact hc.2 h1
  constructor
  · unfold parseTranscriptXml
    by_cases he : parsedEntries xml lang = []
    · rw [if_pos he]
      exact ⟨fun _ => hchar.mp he, fun _ => rfl⟩
    · rw [if_neg he]
      constructor
      · intro h
        exact Except.noConfusion h
      · intro hall
        exact absurd (hchar.mpr hall) he
  · intro es h
    unfold parseTranscriptXml at h
    by_cases he : parsedEntries xml lang = []
    · rw [if_pos he] at h
      exact Except.noConfusion h
    · rw [if_neg he] at h
      injection h with h2
      rw [h2] at he
      exact he

/-- C4 witness: the amended theorem applied to an input with no matching
element at all. -/
theorem parseTranscriptXml_error_iff_witness :
    parseTranscriptXml "no elements here".data "en".data
      = Except.error "No transcript entries found in response.".data :=
  (parseTranscriptXml_error_iff "no elements here".data "en".data).1.mpr (by decide)

/-! ## Parser lemmas -/

theorem isPrefixOf_self (l r : List Char) : l.isPrefixOf (l ++ r) = true :=
  List.isPrefixOf_iff_prefix.mpr (List.prefix_append l r)

theorem takeWhile_all {p : Char → Bool} (l : List Char) (h : l.all p = true) :
    l.takeWhile p = l := by
  have := takeWhile_app l [] h
  simpa using this

theorem stripPrefix_self (pre X : List Char) : stripPrefix pre (pre ++ X) = some X := by
  unfold stripPrefix
  rw [if_pos, List.drop_left]
  rw [isPrefixOf_self]

theorem takeWhile_stop_dur (s Y : List Char) (hs : s.all (fun c => c != dq) = true) :
    (s ++ ((dq :: " dur=".data ++ [dq]) ++ Y)).takeWhile (fun c => c != dq) = s := by
  rw [takeWhile_app _ _ hs,
    show ((dq :: " dur=".data ++ [dq]) ++ Y).takeWhile (fun c => c != dq)
      = ([] : List Char) from rfl, List.append_nil]

theorem takeWhile_stop_close (d Y : List Char) (hd : d.all (fun c => c != dq) = true) :
    (d ++ ((dq :: ">".data) ++ Y)).takeWhile (fun c => c != dq) = d := by
  rw [takeWhile_app _ _ hd,
    show ((dq :: ">".data) ++ Y).takeWhile (fun c => c != dq)
      = ([] : List Char) from rfl, List.append_nil]

theorem takeWhile_stop_endtag (b Y : List Char) (hb : b.all (fun c => c != '<') = true) :
    (b ++ ("</text>".data ++ Y)).takeWhile (fun c => c != '<') = b := by
  rw [takeWhile_app _ _ hb,
    show ("</text>".data ++ Y).takeWhile (fun c => c != '<')
      = ([] : List Char) from rfl, List.append_nil]

theorem xmlTail1_elem (s Y : List Char) (hs : s.all (fun c => c != dq) = true) :
    xmlTail1 (s ++ ((dq :: " dur=".data ++ [dq]) ++ Y)) = xmlTail2 s Y := by
  unfold xmlTail1
  rw [takeWhile_stop_dur s Y hs, List.drop_left, stripPrefix_self]

theorem xmlTail2_elem (st d Y : List Char) (hd : d.all (fun c => c != dq) = true) :
    xmlTail2 st (d ++ ((dq :: ">".data) ++ Y)) = xmlTail3 st d Y := by
  unfold xmlTail2
  rw [takeWhile_stop_close d Y hd, List.drop_left, stripPrefix_self]

theorem xmlTail3_elem (st du b Y : List Char) (hb : b.all (fun c => c != '<') = true) :
    xmlTail3 st du (b ++ ("</text>".data ++ Y)) = some (⟨st, du, b⟩, Y) := by
  unfold xmlTail3
  rw [takeWhile_stop_endtag b Y hb, List.drop_left, stripPrefix_self]

theorem tryXmlAt_elem (s d b r : List Char) (hs : attrOk s = true)
    (hd : attrOk d = true) (hb : bodyOk b = true) :
    tryXmlAt (mkTextElem (s, d, b) ++ r) = some (⟨s, d, b⟩, r) := by
  have hs' : s.all (fun c => c != dq) = true := hs
  have hd' : d.all (fun c => c != dq) = true := hd
  have hb' : b.all (fun c => c != '<') = true := hb
  have e0 : mkTextElem (s, d, b) ++ r
      = ("<text start=".data ++ [dq]) ++
          (s ++ ((dq :: " dur=".data ++ [dq]) ++
            (d ++ ((dq :: ">".data) ++ (b ++ ("</text>".data ++ r)))))) := by
    simp [mkTextElem, List.append_assoc]
  rw [e0]
  unfold tryXmlAt
  rw [stripPrefix_self]
  show xmlTail1 (s ++ ((dq :: " dur=".data ++ [dq]) ++
      (d ++ ((dq :: ">".data) ++ (b ++ ("</text>".data ++ r))))))
    = some (⟨s, d, b⟩, r)
  rw [xmlTail1_elem _ _ hs', xmlTail2_elem _ _ _ hd', xmlTail3_elem _ _ _ _ hb']

theorem xmlMatchesF_found (f : Nat) (s rest : List Char) (m : XmlMatch)
    (hne : s ≠ []) (h : tryXmlAt s = some (m, rest)) :
    xmlMatchesF (f + 1) s = m :: xmlMatchesF f rest := by
  cases s with
  | nil => exact absurd rfl hne
  | cons c t =>
    simp only [xmlMatchesF]
    rw [h]

theorem xmlMatchesF_captionDoc (items : List (List Char × List Char × List Char)) :
    (∀ i ∈ items, attrOk i.1 = true ∧ attrOk i.2.1 = true ∧ bodyOk i.2.2 = true) →
    ∀ fuel, (captionDoc items).length ≤ fuel →
      xmlMatchesF fuel (captionDoc items)
        = items.map fun i => (⟨i.1, i.2.1, i.2.2⟩ : XmlMatch) := by
  induction items with
  | nil =>
    intro _ fuel _
    cases fuel <;> rfl
  | cons i rest ih =>
    intro h fuel hf
    have hdoc : captionDoc (i :: rest) = mkTextElem i ++ captionDoc rest := by
      simp [captionDoc]
    obtain ⟨hi1, hi2, hi3⟩ := h i (List.mem_cons_self i rest)
    have hrest : ∀ j ∈ rest, attrOk j.1 = true ∧ attrOk j.2.1 = true ∧ bodyOk j.2.2 = true :=
      fun j hj => h j (List.mem_cons_of_mem i hj)
    have hlen : (mkTextElem i).length = 29 + i.1.length + i.2.1.length + i.2.2.length := by
      simp [mkTextElem]
      omega
    rw [hdoc] at hf
    rw [List.length_append] at hf
    cases fuel with
    | zero => omega
    | succ f =>
      have hmk : mkTextElem i ≠ [] := by
        intro hemp
        rw [hemp] at hlen
        simp at hlen
        omega
      have hne : mkTextElem i ++ captionDoc rest ≠ [] := by
        intro hemp
        rcases List.append_eq_nil.mp hemp with ⟨h1, _⟩
        exact hmk h1
      rw [hdoc,
        xmlMatchesF_found f _ (captionDoc rest) _ hne
          (tryXmlAt_elem i.1 i.2.1 i.2.2 (captionDoc rest) hi1 hi2 hi3),
        ih hrest f (by omega)]
      rfl

theorem xmlMatches_captionDoc (items : List (List Char × List Char × List Char))
    (h : ∀ i ∈ items, attrOk i.1 = true ∧ attrOk i.2.1 = true ∧ bodyOk i.2.2 = true) :
    xmlMatches (captionDoc items) = items.map fun i => (⟨i.1, i.2.1, i.2.2⟩ : XmlMatch) :=
  xmlMatchesF_captionDoc items h _ le_rfl

theorem filterMap_all_some {α β : Type} (f : α → Option β) (g : α → β) (l : List α)
    (h : ∀ a ∈ l, f a = some (g a)) : l.filterMap f = l.map g := by
  induction l with
  | nil => rfl
  | cons a t ih =>
    rw [List.filterMap_cons, h a (List.mem_cons_self a t), List.map_cons,
      ih fun x hx => h x (List.mem_cons_of_mem a hx)]

theorem ws_false_of_digit (c : Char) (h : c.isDigit = true) : isJsWs c = false := by
  unfold isJsWs
  have key : ∀ x : Char, x.isDigit = false → (c == x) = false := by
    intro x hx
    cases hb : c == x with
    | false => rfl
    | true =>
      rw [eq_of_beq hb] at h
      rw [h] at hx
      exact Bool.noConfusion hx
  rw [key ' ' (by decide), key (Char.ofNat 9) (by decide), key nl (by decide),
    key (Char.ofNat 13) (by decide), key (Char.ofNat 11) (by decide),
    key (Char.ofNat 12) (by decide)]
  rfl

theorem parseFloat_digits (s : List Char) (h1 : s ≠ []) (h2 : s.all Char.isDigit = true) :
    parseFloatM s = some ((natOfDigits s : ℚ)) := by
  cases s with
  | nil => exact absurd rfl h1
  | cons c t =>
    have hall := h2
    rw [List.all_cons, Bool.and_eq_true] at h2
    have hc : c.isDigit = true := h2.1
    have hnws : isJsWs c = false := ws_false_of_digit c hc
    have hnm : ¬ c = '-' := by
      intro e
      rw [e] at hc
      exact absurd hc (by decide)
    have hnp : ¬ c = '+' := by
      intro e
      rw [e] at hc
      exact absurd hc (by decide)
    have hdw : (c :: t).dropWhile isJsWs = c :: t := by
      rw [List.dropWhile_cons, if_neg]
      rw [hnws]
      simp
    have htw : (c :: t).takeWhile Char.isDigit = c :: t := takeWhile_all _ hall
    have hnil : natOfDigits [] = 0 := rfl
    have hexp : parseExp [] = 0 := rfl
    simp [parseFloatM, hdw, htw, hnm, hnp, hnil, hexp]

/-! ## Claim C5 -/

/-- C5 (counterexample): the claim says every matching `<text start dur>`
element yields one entry; but an element whose `start` attribute is empty
matches the regex and is dropped, so two matching elements yield a single
entry. -/
theorem parseTranscriptXml_skips_element_counterexample :
    (xmlMatches
        "<text start=\"\" dur=\"1\">a</text><text start=\"1\" dur=\"1\">b</text>".data).length = 2
  ∧ parseTranscriptXml
      "<text start=\"\" dur=\"1\">a</text><text start=\"1\" dur=\"1\">b</text>".data "en".data
      = Except.ok [⟨"b".data, (parseFloatM "1".data).map (fun q => q * 1000),
          (parseFloatM "1".data).map (fun q => q * 1000), "en".data⟩] := by
  have hpe : parsedEntries
      "<text start=\"\" dur=\"1\">a</text><text start=\"1\" dur=\"1\">b</text>".data "en".data
      = [⟨"b".data, (parseFloatM "1".data).map (fun q => q * 1000),
          (parseFloatM "1".data).map (fun q => q * 1000), "en".data⟩] := rfl
  refine ⟨rfl, ?_⟩
  unfold parseTranscriptXml
  rw [hpe]
  rfl

/-- C5 (amended): for every sequence of `<text>` elements whose `start` and
`dur` attribute values are non-empty (and quote-free, so the `[^"]*`
captures reproduce them; bodies `<`-free likewise), `parseTranscriptXml`
emits exactly one entry per element in document order, with
`text = decode(raw_inner_text)`, `offsetMs = parseFloat(start) × 1000`,
`durationMs = parseFloat(dur) × 1000` and `languageCode` the supplied tag;
for an attribute that is a plain digit string the offset equals the
attribute value in seconds times 1000 exactly.  Elements with an empty
`start` or `dur` attribute are skipped. -/
theorem parseTranscriptXml_per_element
    (items : List (List Char × List Char × List Char)) (lang : List Char)
    (h : ∀ i ∈ items, attrOk i.1 = true ∧ attrOk i.2.1 = true ∧ bodyOk i.2.2 = true
          ∧ i.1 ≠ [] ∧ i.2.1 ≠ [])
    (hne : items ≠ []) :
    parseTranscriptXml (captionDoc items) lang
      = Except.ok (items.map fun i =>
          (⟨decodeXmlEntities i.2.2, (parseFloatM i.2.1).map (fun q => q * 1000),
            (parseFloatM i.1).map (fun q => q * 1000), lang⟩ : TranscriptEntry))
  ∧ ∀ s : List Char, s ≠ [] → s.all Char.isDigit = true →
      (parseFloatM s).map (fun q => q * 1000) = some ((natOfDigits s : ℚ) * 1000) := by
  constructor
  · have hpe : parsedEntries (captionDoc items) lang
        = items.map fun i =>
            (⟨decodeXmlEntities i.2.2, (parseFloatM i.2.1).map (fun q => q * 1000),
              (parseFloatM i.1).map (fun q => q * 1000), lang⟩ : TranscriptEntry) := by
      unfold parsedEntries
      rw [xmlMatches_captionDoc items fun i hi => ⟨(h i hi).1, (h i hi).2.1, (h i hi).2.2.1⟩,
        List.filterMap_map]
      refine filterMap_all_some _ _ items fun i hi => ?_
      have hcond := h i hi
      show (if (⟨i.1, i.2.1, i.2.2⟩ : XmlMatch).start ≠ [] ∧ (⟨i.1, i.2.1, i.2.2⟩ : XmlMatch).dur ≠ [] then _ else none) = _
      rw [if_pos ⟨hcond.2.2.2.1, hcond.2.2.2.2⟩]
    have hmapne : items.map (fun i =>
        (⟨decodeXmlEntities i.2.2, (parseFloatM i.2.1).map (fun q => q * 1000),
          (parseFloatM i.1).map (fun q => q * 1000), lang⟩ : TranscriptEntry)) ≠ [] := by
      intro hmap
      exact hne (List.map_eq_nil_iff.mp hmap)
    unfold parseTranscriptXml
    rw [hpe, if_neg hmapne]
  · intro s hs1 hs2
    rw [parseFloat_digits s hs1 hs2]
    rfl

/-- C5 witness: the amended theorem applied at a single element
`<text start="0" dur="2">a</text>`. -/
theorem parseTranscriptXml_per_element_witness :
    parseTranscriptXml (captionDoc [("0".data, "2".data, "a".data)]) "en".data
      = Except.ok [⟨decodeXmlEntities "a".data,
          (parseFloatM "2".data).map (fun q => q * 1000),
          (parseFloatM "0".data).map (fun q => q * 1000), "en".data⟩] :=
  (parseTranscriptXml_per_element [("0".data, "2".data, "a".data)] "en".data
    (by decide) (by decide)).1

/-! ## Formatter lemmas -/

theorem floor_cast_div_nat (a b : ℕ) (hb : (0:ℚ) < (b:ℚ)) :
    ⌊(a : ℚ) / (b : ℚ)⌋ = ((a / b : ℕ) : ℤ) := by
  rw [Int.floor_eq_iff]
  constructor
  · rw [le_div_iff₀ hb]
    exact_mod_cast Nat.div_mul_le_self a b
  · rw [div_lt_iff₀ hb]
    have hbn : 0 < b := by exact_mod_cast hb
    have h1 := Nat.div_add_mod a b
    have h2 : a % b < b := Nat.mod_lt a hbn
    have h3 : a < (a / b + 1) * b := by
      calc a = b * (a / b) + a % b := h1.symm
        _ < b * (a / b) + b := by omega
        _ = (a / b + 1) * b := by ring
    push_cast
    exact_mod_cast h3

theorem intToChars_natCast (n : ℕ) : intToChars ((n : ℕ) : ℤ) = natToChars n := by
  unfold intToChars
  rw [if_neg (not_lt.mpr (Int.natCast_nonneg n)), Int.toNat_natCast]

/-- The general shape of `formatTimestamp` on a non-negative rational
number of milliseconds: it renders `timestampSpec` of the whole seconds. -/
theorem formatTimestamp_eq_spec (q : ℚ) (hq : 0 ≤ q) :
    formatTimestamp (some q) = timestampSpec (⌊q / 1000⌋).toNat := by
  have hflnn : 0 ≤ ⌊q / 1000⌋ := Int.floor_nonneg.mpr (by positivity)
  have hfl : ⌊q / 1000⌋ = (((⌊q / 1000⌋).toNat : ℕ) : ℤ) :=
    (Int.toNat_of_nonneg hflnn).symm
  generalize hT : (⌊q / 1000⌋).toNat = T
  rw [hT] at hfl
  have h1000 : ((1000:ℕ):ℚ) = (1000:ℚ) := by norm_num
  have h3600 : ((3600:ℕ):ℚ) = (3600:ℚ) := by norm_num
  have h60 : ((60:ℕ):ℚ) = (60:ℚ) := by norm_num
  have f2 : ⌊(((T:ℕ):ℤ):ℚ) / (3600:ℚ)⌋ = ((T / 3600 : ℕ) : ℤ) := by
    rw [Int.cast_natCast, ← h3600]
    exact floor_cast_div_nat T 3600 (by norm_num)
  have htmod : ((T:ℕ):ℤ).tmod 3600 = (((T % 3600 : ℕ)):ℤ) := rfl
  have f3 : ⌊((((T % 3600 : ℕ)):ℤ):ℚ) / (60:ℚ)⌋ = (((T % 3600) / 60 : ℕ) : ℤ) := by
    rw [Int.cast_natCast, ← h60]
    exact floor_cast_div_nat (T % 3600) 60 (by norm_num)
  have htmod60 : ((T:ℕ):ℤ).tmod 60 = (((T % 60 : ℕ)):ℤ) := rfl
  show formatTimestampQ q = timestampSpec T
  unfold formatTimestampQ
  rw [hfl, f2, htmod, f3, htmod60, intToChars_natCast, intToChars_natCast,
    intToChars_natCast]
  unfold timestampSpec
  by_cases hc : 3600 ≤ T
  · have hpos : ((T / 3600 : ℕ) : ℤ) > 0 := by
      exact_mod_cast Nat.div_pos hc (by norm_num)
    rw [if_pos hpos, if_pos hc]
  · have hz : T / 3600 = 0 := Nat.div_eq_of_lt (by omega)
    have hnpos : ¬ (((T / 3600 : ℕ) : ℤ) > 0) := by
      rw [hz]
      simp
    rw [if_neg hnpos, if_neg hc, Nat.mod_eq_of_lt (by omega)]

/-- `formatTimestamp` on a whole number of milliseconds. -/
theorem formatTimestamp_nat (n : ℕ) :
    formatTimestamp (some ((n : ℕ) : ℚ)) = timestampSpec (n / 1000) := by
  rw [formatTimestamp_eq_spec _ (by positivity),
    show ((1000:ℚ)) = ((1000:ℕ):ℚ) by norm_num,
    floor_cast_div_nat n 1000 (by norm_num), Int.toNat_natCast]

/-! ## Claim C6 -/

/-- C6: for every non-negative millisecond offset the timestamp formatter
returns `H:MM:SS` exactly when the offset is at least one hour and `M:SS`
otherwise, with minutes and seconds zero-padded to two digits and hours and
bare minutes unpadded (the shape `timestampSpec`); in particular
`format(0) = "0:00"`, `format(45000) = "0:45"`, `format(125000) = "2:05"`
and `format(3665000) = "1:01:05"`. -/
theorem formatTimestamp_spec (q : ℚ) (hq : 0 ≤ q) :
    formatTimestamp (some q) = timestampSpec (⌊q / 1000⌋).toNat
  ∧ (3600000 ≤ q ↔ 3600 ≤ (⌊q / 1000⌋).toNat)
  ∧ formatTimestamp (some (0:ℚ)) = "0:00".data
  ∧ formatTimestamp (some (45000:ℚ)) = "0:45".data
  ∧ formatTimestamp (some (125000:ℚ)) = "2:05".data
  ∧ formatTimestamp (some (3665000:ℚ)) = "1:01:05".data := by
  refine ⟨formatTimestamp_eq_spec q hq, ?_, ?_, ?_, ?_, ?_⟩
  · have hflnn : 0 ≤ ⌊q / 1000⌋ := Int.floor_nonneg.mpr (by positivity)
    rw [Int.le_toNat hflnn, Int.le_floor]
    rw [le_div_iff₀ (by norm_num : (0:ℚ) < 1000)]
    constructor
    · intro h
      calc ((3600:ℤ):ℚ) * 1000 = 3600000 := by norm_num
        _ ≤ q := h
    · intro h
      calc (3600000:ℚ) = ((3600:ℤ):ℚ) * 1000 := by norm_num
        _ ≤ q := h
  · rw [show (0:ℚ) = ((0:ℕ):ℚ) by norm_num, formatTimestamp_nat]
    decide
  · rw [show (45000:ℚ) = ((45000:ℕ):ℚ) by norm_num, formatTimestamp_nat]
    decide
  · rw [show (125000:ℚ) = ((125000:ℕ):ℚ) by norm_num, formatTimestamp_nat]
    decide
  · rw [show (3665000:ℚ) = ((3665000:ℕ):ℚ) by norm_num, formatTimestamp_nat]
    decide

/-- C6 witness: the theorem applied at 125000 ms. -/
theorem formatTimestamp_spec_witness :
    formatTimestamp (some (125000:ℚ)) = "2:05".data :=
  (formatTimestamp_spec 125000 (by norm_num)).2.2.2.2.1

/-! ## Claim C7 -/

theorem joinSep_cons (sep x : List Char) (xs : List (List Char)) :
    joinSep sep (x :: xs) = x ++ (xs.map fun y => sep ++ y).flatten := by
  induction xs generalizing x with
  | nil => simp [joinSep]
  | cons y ys ih =>
    show x ++ sep ++ joinSep sep (y :: ys) = _
    rw [ih y]
    simp [List.append_assoc]

/-- C7: `formatTranscript` on a non-empty entry sequence produces a blank
line, the section heading, a blank line, then either one `[timestamp] text`
line per entry (newline-separated) when `includeTimestamps` is set, or all
entry texts joined by single spaces; on the two-entry Rickroll scenario it
produces exactly the spec's two fragments. -/
theorem formatTranscript_spec (e : TranscriptEntry) (es : List TranscriptEntry)
    (opts : FormatOptions) :
    formatTranscript (e :: es) opts =
      nl :: (opts.sectionHeading ++ nl :: nl ::
        (if opts.includeTimestamps then
          ('[' :: (formatTimestamp e.offset ++ ']' :: ' ' :: e.text)) ++
            (es.map fun x =>
              nl :: '[' :: (formatTimestamp x.offset ++ ']' :: ' ' :: x.text)).flatten
        else e.text ++ (es.map fun x => ' ' :: x.text).flatten))
  ∧ formatTranscript
      [⟨"We".data ++ apos :: "re no strangers".data, some 2000, some 0, "en".data⟩,
       ⟨"to love".data, some 1000, some 2000, "en".data⟩]
      ⟨false, "## Transcript".data⟩
      = "\n## Transcript\n\nWe".data ++ apos :: "re no strangers to love".data
  ∧ formatTranscript
      [⟨"We".data ++ apos :: "re no strangers".data, some 2000, some 0, "en".data⟩,
       ⟨"to love".data, some 1000, some 2000, "en".data⟩]
      ⟨true, "## Transcript".data⟩
      = "\n## Transcript\n\n[0:00] We".data ++ apos :: "re no strangers\n[0:02] to love".data := by
  refine ⟨?_, ?_, ?_⟩
  · by_cases ht : opts.includeTimestamps
    · rw [if_pos ht]
      unfold formatTranscript
      rw [if_pos ht, List.map_cons, joinSep_cons, List.map_map]
      rfl
    · rw [if_neg ht]
      unfold formatTranscript
      rw [if_neg ht, List.map_cons, joinSep_cons, List.map_map]
      rfl
  · decide
  · have ht0 : formatTimestamp (some (0:ℚ)) = "0:00".data := by
      rw [show (0:ℚ) = ((0:ℕ):ℚ) by norm_num, formatTimestamp_nat]
      decide
    have ht2 : formatTimestamp (some (2000:ℚ)) = "0:02".data := by
      rw [show (2000:ℚ) = ((2000:ℕ):ℚ) by norm_num, formatTimestamp_nat]
      decide
    unfold formatTranscript
    rw [if_pos rfl, List.map_cons, List.map_cons, List.map_nil]
    show nl :: ("## Transcript".data ++ nl :: nl :: joinSep [nl]
        ['[' :: (formatTimestamp (some (0:ℚ)) ++ ']' :: ' ' ::
            ("We".data ++ apos :: "re no strangers".data)),
         '[' :: (formatTimestamp (some (2000:ℚ)) ++ ']' :: ' ' :: "to love".data)]) = _
    rw [ht0, ht2]
    decide

/-! ## Claim C8 -/

/-- C8: for every non-empty caption-track list and preferred language code,
`selectTrack` succeeds and returns exactly the track chosen by the spec's
three-tier fallback `selectTrackSpec`: the first track with exact
language-code equality, else the first track whose code has the
base-language prefix of the preferred code, else the first listed track —
tiers tried in this fixed order with ties going to list order. -/
theorem selectTrack_three_tier (tracks : List CaptionTrack) (lang : List Char)
    (h : tracks ≠ []) :
    ∃ t : CaptionTrack, selectTrackSpec tracks lang = some t
      ∧ selectTrack tracks lang = Except.ok t := by
  unfold selectTrack selectTrackSpec
  cases h1 : tracks.find? fun t => t.languageCode == lang with
  | some t => exact ⟨t, rfl, rfl⟩
  | none =>
    cases h2 : tracks.find? fun t => (baseLangOf lang).isPrefixOf t.languageCode with
    | some t => exact ⟨t, rfl, rfl⟩
    | none =>
      cases tracks with
      | nil => exact absurd rfl h
      | cons a as => exact ⟨a, rfl, rfl⟩

/-- C8 witness: the theorem applied to a two-track list where only a
base-language prefix matches. -/
theorem selectTrack_three_tier_witness :
    ∃ t : CaptionTrack,
      selectTrackSpec [⟨none, none, "de".data⟩, ⟨none, none, "en-US".data⟩] "en".data = some t
      ∧ selectTrack [⟨none, none, "de".data⟩, ⟨none, none, "en-US".data⟩] "en".data
          = Except.ok t :=
  selectTrack_three_tier [⟨none, none, "de".data⟩, ⟨none, none, "en-US".data⟩] "en".data
    (by decide)

/-! ## Claim C9 -/

/-- C9: on every failure path of the orchestrator — document already
containing the configured heading substring, no URL detected, no
identifier extracted, retrieval failure, or an empty entry sequence — the
document text is unchanged; the document is modified, and then only by
appending the fragment, exactly when the full pipeline succeeds. -/
theorem fetchTranscript_no_partial_mutation (content : List Char)
    (settings : YouTubeTranscriptSettings)
    (fetch : List Char → List Char → Except (List Char) (List TranscriptEntry)) :
    (hasTranscriptSection content settings.sectionHeading = true →
      fetchTranscriptForCurrentNote content settings fetch = (content, RunOutcome.alreadyHas))
  ∧ ((∀ n, (fetchTranscriptForCurrentNote content settings fetch).2 ≠ RunOutcome.success n) →
      (fetchTranscriptForCurrentNote content settings fetch).1 = content)
  ∧ ((fetchTranscriptForCurrentNote content settings fetch).1 ≠ content →
      ∃ tr : List TranscriptEntry, tr ≠ [] ∧
        fetchTranscriptForCurrentNote content settings fetch
          = (content ++ nl :: formatTranscript tr
                ⟨settings.includeTimestamps, settings.sectionHeading⟩,
             RunOutcome.success tr.length)) := by
  have master :
      ((fetchTranscriptForCurrentNote content settings fetch).1 = content
        ∧ ∀ n, (fetchTranscriptForCurrentNote content settings fetch).2
            ≠ RunOutcome.success n)
    ∨ ∃ tr : List TranscriptEntry, tr ≠ [] ∧
        fetchTranscriptForCurrentNote content settings fetch
          = (content ++ nl :: formatTranscript tr
                ⟨settings.includeTimestamps, settings.sectionHeading⟩,
             RunOutcome.success tr.length) := by
    unfold fetchTranscriptForCurrentNote
    split
    · left
      exact ⟨rfl, by intro n; simp⟩
    · split
      · left
        exact ⟨rfl, by intro n; simp⟩
      · split
        · left
          exact ⟨rfl, by intro n; simp⟩
        · split
          · left
            exact ⟨rfl, by intro n; simp⟩
          · split
            · left
              exact ⟨rfl, by intro n; simp⟩
            · right
              rename_i hlen
              refine ⟨_, ?_, rfl⟩
              intro hemp
              rw [hemp] at hlen
              exact hlen rfl
  refine ⟨?_, ?_, ?_⟩
  · intro h1
    unfold fetchTranscriptForCurrentNote
    rw [if_pos h1]
  · intro hno
    rcases master with ⟨hdoc, _⟩ | ⟨tr, _, heq⟩
    · exact hdoc
    · exact absurd (by rw [heq]) (hno tr.length)
  · intro hmod
    rcases master with ⟨hdoc, _⟩ | ⟨tr, hne, heq⟩
    · exact absurd hdoc hmod
    · exact ⟨tr, hne, heq⟩

/-- C9 witness: the already-has-transcript guard applied to a note that
already contains the default heading; the text is returned unchanged. -/
theorem fetchTranscript_no_partial_mutation_witness :
    fetchTranscriptForCurrentNote "## Transcript".data
      ⟨"en".data, false, "## Transcript".data⟩
      (fun _ _ => Except.error [])
      = ("## Transcript".data, RunOutcome.alreadyHas) :=
  (fetchTranscript_no_partial_mutation "## Transcript".data
    ⟨"en".data, false, "## Transcript".data⟩ (fun _ _ => Except.error [])).1 (by decide)

end YTT
